import Mathlib

/-!
Verification development for the FlexKV tracer
(`src/flexkv/common/tracer.py`, class `FlexKVTracer`).

The tracer records structured events as JSON lines into a rotated trace
file.  This file gives a shallow embedding of the tracer:

* `JVal`/`JArr`/`JObj` — JSON values, with `dumpsChars` mirroring
  Python's `json.dumps(record, ensure_ascii=False, separators=(',',':'))`
  (string escaping of `"`/backslash/control characters, compact
  separators, objects in insertion order).
* `PyVal` — the Python values handled by `_convert_tensor_to_list`
  (primitives, tensors/arrays, lists, tuples, string-keyed dicts), and
  `pyToJ` mirroring the serializability boundary of `json.dumps`.
* `TraceFS` — the generation-indexed trace files (index 0 is the active
  path `P`, index i is `P.i`), with `rotateFilesIfNeeded` mirroring
  `_rotate_files_if_needed`.
* `EnState`/`World`/`Tracer` — the buffer, last-flush timestamp and the
  filesystem, with the buffered trace operations and flush.

Times are modelled as integers (Python uses float seconds; no claim
depends on fractional time), and file sizes in bytes via
`String.utf8ByteSize`.
-/

/-! ## JSON values and `json.dumps` -/

mutual

inductive JVal : Type where
  | jnull : JVal
  | jbool : Bool → JVal
  | jint : Int → JVal
  | jstr : String → JVal
  | jarr : JArr → JVal
  | jobj : JObj → JVal

inductive JArr : Type where
  | nil : JArr
  | cons : JVal → JArr → JArr

inductive JObj : Type where
  | nil : JObj
  | cons : String → JVal → JObj → JObj

end

def JArr.ofList : List JVal → JArr
  | [] => .nil
  | x :: xs => .cons x (JArr.ofList xs)

def JObj.ofList : List (String × JVal) → JObj
  | [] => .nil
  | (k, v) :: kvs => .cons k v (JObj.ofList kvs)

/-- One hexadecimal digit, as used by `json.dumps` for small control
characters (`\u00XX`). -/
def hexDig (n : Nat) : Char :=
  Nat.digitChar n

/-- Escaping of a single character inside a JSON string, as performed by
Python's `json.dumps` with `ensure_ascii=False`: `"` and `\` are
backslash-escaped, the common control characters get two-character
escapes, the remaining control characters (code < 0x20) become
`\u00XX`, and every other character is emitted unchanged. -/
def escChar (c : Char) : List Char :=
  if c = '"' then ['\\', '"']
  else if c = '\\' then ['\\', '\\']
  else if c = '\n' then ['\\', 'n']
  else if c = '\r' then ['\\', 'r']
  else if c = '\t' then ['\\', 't']
  else if c = '\x08' then ['\\', 'b']
  else if c = '\x0c' then ['\\', 'f']
  else if c.toNat < 32 then
    ['\\', 'u', '0', '0', hexDig (c.toNat / 16), hexDig (c.toNat % 16)]
  else [c]

def escList : List Char → List Char
  | [] => []
  | c :: cs => escChar c ++ escList cs

mutual

/-- `json.dumps(v, ensure_ascii=False, separators=(',', ':'))`, at the
level of character lists. -/
def dumpsChars : JVal → List Char
  | .jnull => 'n' :: 'u' :: 'l' :: 'l' :: []
  | .jbool true => 't' :: 'r' :: 'u' :: 'e' :: []
  | .jbool false => 'f' :: 'a' :: 'l' :: 's' :: 'e' :: []
  | .jint n => (Int.repr n).data
  | .jstr s => '"' :: (escList s.data ++ ['"'])
  | .jarr xs => '[' :: (dumpsArr xs ++ [']'])
  | .jobj kvs => '\x7b' :: (dumpsObj kvs ++ ['\x7d'])

def dumpsArr : JArr → List Char
  | .nil => []
  | .cons x .nil => dumpsChars x
  | .cons x (.cons y xs) => dumpsChars x ++ ',' :: dumpsArr (.cons y xs)

def dumpsObj : JObj → List Char
  | .nil => []
  | .cons k v .nil => '"' :: (escList k.data ++ '"' :: ':' :: dumpsChars v)
  | .cons k v (.cons k2 v2 kvs) =>
    ('"' :: (escList k.data ++ '"' :: ':' :: dumpsChars v)) ++
      ',' :: dumpsObj (.cons k2 v2 kvs)

end

/-- `json.dumps` as a `String`. -/
def dumps (j : JVal) : String :=
  String.mk (dumpsChars j)

/-- A character list with no embedded newline. -/
def noNL (cs : List Char) : Prop :=
  ∀ c ∈ cs, c ≠ '\n'

instance : ∀ cs, Decidable (noNL cs) := fun cs =>
  List.decidableBAll (fun c => c ≠ '\n') cs

theorem noNL_nil : noNL [] := by
  intro c hc
  cases hc

theorem noNL_append {a b : List Char} (ha : noNL a) (hb : noNL b) :
    noNL (a ++ b) := by
  intro c hc
  rcases List.mem_append.mp hc with h | h
  · exact ha c h
  · exact hb c h

theorem noNL_cons {c : Char} {cs : List Char} (hc : c ≠ '\n') (h : noNL cs) :
    noNL (c :: cs) := by
  intro d hd
  rcases List.mem_cons.mp hd with rfl | hd
  · exact hc
  · exact h d hd

theorem hexDig_ne_nl : ∀ n : Nat, hexDig n ≠ '\n'
  | 0 => by decide
  | 1 => by decide
  | 2 => by decide
  | 3 => by decide
  | 4 => by decide
  | 5 => by decide
  | 6 => by decide
  | 7 => by decide
  | 8 => by decide
  | 9 => by decide
  | 10 => by decide
  | 11 => by decide
  | 12 => by decide
  | 13 => by decide
  | 14 => by decide
  | 15 => by decide
  | (n + 16) => by
    unfold hexDig Nat.digitChar
    repeat rw [if_neg (by omega)]
    decide

theorem noNL_escChar (c : Char) : noNL (escChar c) := by
  unfold escChar
  split_ifs with h1 h2 h3 h4 h5 h6 h7 h8
  · decide
  · decide
  · decide
  · decide
  · decide
  · decide
  · decide
  · exact noNL_cons (by decide) (noNL_cons (by decide) (noNL_cons (by decide)
      (noNL_cons (by decide) (noNL_cons (hexDig_ne_nl _)
        (noNL_cons (hexDig_ne_nl _) noNL_nil)))))
  · exact noNL_cons h3 noNL_nil

theorem noNL_escList (cs : List Char) : noNL (escList cs) := by
  induction cs with
  | nil => exact noNL_nil
  | cons c cs ih => exact noNL_append (noNL_escChar c) ih

theorem digitChar_ne_nl (n : Nat) : Nat.digitChar n ≠ '\n' :=
  hexDig_ne_nl n

theorem noNL_toDigitsCore (base : Nat) :
    ∀ (fuel n : Nat) (ds : List Char), noNL ds →
      noNL (Nat.toDigitsCore base fuel n ds)
  | 0, _, _, hds => hds
  | fuel + 1, n, ds, hds => by
    unfold Nat.toDigitsCore
    dsimp only
    split
    · exact noNL_cons (digitChar_ne_nl _) hds
    · exact noNL_toDigitsCore base fuel _ _ (noNL_cons (digitChar_ne_nl _) hds)

theorem noNL_natRepr (n : Nat) : noNL (Nat.repr n).data := by
  show noNL (Nat.toDigits 10 n).asString.data
  show noNL (Nat.toDigits 10 n)
  exact noNL_toDigitsCore 10 (n + 1) n [] noNL_nil

theorem noNL_intRepr (n : Int) : noNL (Int.repr n).data := by
  cases n with
  | ofNat m => exact noNL_natRepr m
  | negSucc m =>
    show noNL ("-" ++ Nat.repr (m + 1)).data
    rw [String.data_append]
    exact noNL_append (by decide) (noNL_natRepr (m + 1))

mutual

theorem noNL_dumpsChars : ∀ j : JVal, noNL (dumpsChars j)
  | .jnull => by decide
  | .jbool true => by decide
  | .jbool false => by decide
  | .jint n => noNL_intRepr n
  | .jstr s =>
    noNL_cons (by decide) (noNL_append (noNL_escList s.data) (by decide))
  | .jarr xs =>
    noNL_cons (by decide) (noNL_append (noNL_dumpsArr xs) (by decide))
  | .jobj kvs =>
    noNL_cons (by decide) (noNL_append (noNL_dumpsObj kvs) (by decide))

theorem noNL_dumpsArr : ∀ xs : JArr, noNL (dumpsArr xs)
  | .nil => noNL_nil
  | .cons x .nil => noNL_dumpsChars x
  | .cons x (.cons y xs) =>
    noNL_append (noNL_dumpsChars x)
      (noNL_cons (by decide) (noNL_dumpsArr (.cons y xs)))

theorem noNL_dumpsObj : ∀ kvs : JObj, noNL (dumpsObj kvs)
  | .nil => noNL_nil
  | .cons k v .nil =>
    noNL_cons (by decide) (noNL_append (noNL_escList k.data)
      (noNL_cons (by decide) (noNL_cons (by decide) (noNL_dumpsChars v))))
  | .cons k v (.cons k2 v2 kvs) =>
    noNL_append
      (noNL_cons (by decide) (noNL_append (noNL_escList k.data)
        (noNL_cons (by decide) (noNL_cons (by decide) (noNL_dumpsChars v)))))
      (noNL_cons (by decide) (noNL_dumpsObj (.cons k2 v2 kvs)))

end

/-! ## Lookups inside JSON objects (used to state parseability claims) -/

def JObj.lookup : JObj → String → Option JVal
  | .nil, _ => none
  | .cons k v kvs, key => if k = key then some v else JObj.lookup kvs key

/-- Field lookup in a JSON value that is an object. -/
def jLookup : JVal → String → Option JVal
  | .jobj kvs, key => JObj.lookup kvs key
  | _, _ => none

/-- The integers contained in a JSON array. -/
def JArr.ints : JArr → List Int
  | .nil => []
  | .cons (.jint n) xs => n :: JArr.ints xs
  | .cons _ xs => JArr.ints xs

/-- The `data.task_ids` integers of a record (empty when the record does
not have that shape). -/
def recTaskIds (r : JVal) : List Int :=
  match jLookup r "data" with
  | some d =>
    match jLookup d "task_ids" with
    | some (.jarr a) => JArr.ints a
    | _ => []
  | none => []

/-! ## Lines of a file

`_write_to_file` appends `json_record + '\n'` to the active file, so the
file text is newline-terminated.  `splitNL` splits a character list at
every newline (n separators give n+1 chunks); the lines of a
newline-terminated file are all chunks but the final empty one. -/

def splitNL : List Char → List (List Char)
  | [] => [[]]
  | c :: cs =>
    let r := splitNL cs
    if c = '\n' then [] :: r else (c :: r.headD []) :: r.tail

/-- The lines of a file text (text after the last newline is ignored;
for the tracer's newline-terminated files that tail is empty). -/
def fileLines (s : String) : List String :=
  ((splitNL s.data).dropLast).map String.mk

/-- The concatenation `r₁ ++ "\n" ++ r₂ ++ "\n" ++ …` that a flush of
records `r₁, r₂, …` appends to the file. -/
def joinLines : List String → String
  | [] => ""
  | r :: rs => r ++ "\n" ++ joinLines rs

theorem splitNL_cons (c : Char) (cs : List Char) :
    splitNL (c :: cs) =
      if c = '\n' then [] :: splitNL cs
      else (c :: (splitNL cs).headD []) :: (splitNL cs).tail := rfl

theorem splitNL_ne_nil : ∀ cs : List Char, splitNL cs ≠ []
  | [] => by simp [splitNL]
  | c :: cs => by
    rw [splitNL_cons]
    split <;> simp

theorem splitNL_append_nl (r : List Char) (t : List Char) (h : noNL r) :
    splitNL (r ++ '\n' :: t) = r :: splitNL t := by
  induction r with
  | nil => simp [splitNL]
  | cons c cs ih =>
    have hc : c ≠ '\n' := h c (List.mem_cons_self c cs)
    have hcs : noNL cs := fun d hd => h d (List.mem_cons_of_mem c hd)
    rw [List.cons_append, splitNL_cons, if_neg hc, ih hcs]
    rfl

theorem data_joinLines (r : String) (rs : List String) :
    (joinLines (r :: rs)).data = r.data ++ '\n' :: (joinLines rs).data := by
  show (r ++ "\n" ++ joinLines rs).data = _
  rw [String.data_append, String.data_append]
  simp

theorem fileLines_joinLines :
    ∀ rs : List String, (∀ r ∈ rs, noNL r.data) →
      fileLines (joinLines rs) = rs
  | [], _ => by simp [joinLines, fileLines, splitNL]
  | r :: rs, h => by
    have hr : noNL r.data := h r (List.mem_cons_self r rs)
    have hrs : ∀ x ∈ rs, noNL x.data := fun x hx => h x (List.mem_cons_of_mem r hx)
    have hrest := fileLines_joinLines rs hrs
    unfold fileLines at hrest ⊢
    rw [data_joinLines, splitNL_append_nl _ _ hr,
      List.dropLast_cons_of_ne_nil (splitNL_ne_nil _), List.map_cons, hrest]

theorem fileLines_length (rs : List String) (h : ∀ r ∈ rs, noNL r.data) :
    (fileLines (joinLines rs)).length = rs.length := by
  rw [fileLines_joinLines rs h]

/-! ## Python values and `_convert_tensor_to_list`

`PyVal` models the values the tracer handles: JSON primitives,
array-like numeric objects (`torch.Tensor` / `np.ndarray`, abstracted by
their shape and by the nested element tree their `.tolist()` returns),
ordered lists, tuples, and string-keyed dicts (in insertion order). -/

mutual

/-- The nested element tree of an array-like value, as produced by
`.tolist()` on a `torch.Tensor` or `np.ndarray`: a number for a 0-d
array, otherwise a list of subtrees. -/
inductive NList : Type where
  | scalar : Int → NList
  | arr : NListL → NList

inductive NListL : Type where
  | nil : NListL
  | cons : NList → NListL → NListL

end

/-- An array-like value (`torch.Tensor` / `np.ndarray`): its `.shape`
and the element tree returned by `.tolist()`. -/
structure Tensor : Type where
  shape : List Nat
  elems : NList

mutual

inductive PyVal : Type where
  | vint : Int → PyVal
  | vstr : String → PyVal
  | vbool : Bool → PyVal
  | vnone : PyVal
  | vtensor : Tensor → PyVal
  | vlist : PyList → PyVal
  | vtuple : PyList → PyVal
  | vdict : PyDict → PyVal

inductive PyList : Type where
  | nil : PyList
  | cons : PyVal → PyList → PyList

inductive PyDict : Type where
  | nil : PyDict
  | cons : String → PyVal → PyDict → PyDict

end

def PyList.ofList : List PyVal → PyList
  | [] => .nil
  | x :: xs => .cons x (PyList.ofList xs)

def PyDict.ofList : List (String × PyVal) → PyDict
  | [] => .nil
  | (k, v) :: kvs => .cons k v (PyDict.ofList kvs)

mutual

/-- `Tensor.tolist()` / `ndarray.tolist()`: the nested element tree as a
plain Python value (nested lists of numbers). -/
def tolist : NList → PyVal
  | .scalar n => .vint n
  | .arr xs => .vlist (tolistL xs)

def tolistL : NListL → PyList
  | .nil => .nil
  | .cons x xs => .cons (tolist x) (tolistL xs)

end

mutual

/-- `FlexKVTracer._convert_tensor_to_list` (tracer.py lines 65-74):
tensors/arrays become their `tolist()`, dicts are converted value-wise,
lists and tuples element-wise (both producing lists), everything else
passes through unchanged. -/
def convertTensorToList : PyVal → PyVal
  | .vtensor t => tolist t.elems
  | .vdict kvs => .vdict (convertDict kvs)
  | .vlist xs => .vlist (convertList xs)
  | .vtuple xs => .vlist (convertList xs)
  | .vint n => .vint n
  | .vstr s => .vstr s
  | .vbool b => .vbool b
  | .vnone => .vnone

def convertList : PyList → PyList
  | .nil => .nil
  | .cons x xs => .cons (convertTensorToList x) (convertList xs)

def convertDict : PyDict → PyDict
  | .nil => .nil
  | .cons k v kvs => .cons k (convertTensorToList v) (convertDict kvs)

end

mutual

/-- A value composed only of primitives, ordered lists and string-keyed
mappings — no array-like objects, no tuples ("already normalized"). -/
def isNormalized : PyVal → Bool
  | .vtensor _ => false
  | .vtuple _ => false
  | .vdict kvs => isNormalizedD kvs
  | .vlist xs => isNormalizedL xs
  | .vint _ => true
  | .vstr _ => true
  | .vbool _ => true
  | .vnone => true

def isNormalizedL : PyList → Bool
  | .nil => true
  | .cons x xs => isNormalized x && isNormalizedL xs

def isNormalizedD : PyDict → Bool
  | .nil => true
  | .cons _ v kvs => isNormalized v && isNormalizedD kvs

end

mutual

/-- What `json.dumps` accepts, mirroring Python's serializer: tensors
and arrays are not JSON-serializable (`TypeError`), tuples serialize
like lists, dicts keep insertion order. `none` models the raised
error. -/
def pyToJ : PyVal → Option JVal
  | .vint n => some (.jint n)
  | .vstr s => some (.jstr s)
  | .vbool b => some (.jbool b)
  | .vnone => some .jnull
  | .vtensor _ => none
  | .vlist xs => (pyToJList xs).map .jarr
  | .vtuple xs => (pyToJList xs).map .jarr
  | .vdict kvs => (pyToJDict kvs).map .jobj

def pyToJList : PyList → Option JArr
  | .nil => some .nil
  | .cons x xs =>
    match pyToJ x, pyToJList xs with
    | some j, some js => some (.cons j js)
    | _, _ => none

def pyToJDict : PyDict → Option JObj
  | .nil => some .nil
  | .cons k v kvs =>
    match pyToJ v, pyToJDict kvs with
    | some j, some js => some (.cons k j js)
    | _, _ => none

end

/-! ## Python dict operations (insertion order, update-in-place) -/

/-- `d[k] = v` on a Python dict: replaces the value in place when the
key exists, otherwise appends the new entry at the end. -/
def dictSet : PyDict → String → PyVal → PyDict
  | .nil, k, v => .cons k v .nil
  | .cons k2 v2 rest, k, v =>
    if k2 = k then .cons k2 v rest else .cons k2 v2 (dictSet rest k v)

/-- `d.get(k)` on a Python dict (first matching key). -/
def dictGet : PyDict → String → Option PyVal
  | .nil, _ => none
  | .cons k2 v rest, k => if k2 = k then some v else dictGet rest k

/-- The keys of a Python dict, in order. -/
def dictKeys : PyDict → List String
  | .nil => []
  | .cons k _ rest => k :: dictKeys rest

/-! ## Record formatting

Each `trace_*` method builds
`{"timestamp": ..., "event_type": ..., "component": "KVManager", "data": ...}`
and serializes it with
`json.dumps(record, ensure_ascii=False, separators=(',', ':'))`.
Timestamps (`datetime.now().isoformat()`) are inputs here. -/

/-- The `task_ids: Union[int, List[int]]` argument of
`trace_wait_request`. -/
def TaskIds : Type := Sum Int (List Int)

/-- The `task_ids_list` normalization in `trace_wait_request` (tracer.py
lines 230-234): a single int becomes a one-element list. -/
def taskIdsList : TaskIds → List Int
  | .inl n => [n]
  | .inr l => l

def JArr.ofInts (l : List Int) : JArr :=
  JArr.ofList (l.map .jint)

def optIntJ : Option Int → JVal
  | none => .jnull
  | some n => .jint n

/-- The record built by `trace_wait_request` (tracer.py lines 228-246).
All its fields are JSON-native (strings, a list of ints, an optional
int), so it is built directly as a JSON value. -/
def waitRecord (timestamp wait_type : String) (task_ids : TaskIds)
    (layer_group_id : Option Int) : JVal :=
  .jobj (JObj.ofList
    [("timestamp", .jstr timestamp),
     ("event_type", .jstr "wait"),
     ("component", .jstr "KVManager"),
     ("data", .jobj (JObj.ofList
       [("wait_type", .jstr wait_type),
        ("task_ids", .jarr (JArr.ofInts (taskIdsList task_ids))),
        ("layer_group_id", optIntJ layer_group_id)]))])

/-- The serialized text record that `trace_wait_request` appends to the
buffer. -/
def waitJsonRecord (timestamp wait_type : String) (task_ids : TaskIds)
    (layer_group_id : Option Int) : String :=
  dumps (waitRecord timestamp wait_type task_ids layer_group_id)

def vIntList (l : List Nat) : PyVal :=
  .vlist (PyList.ofList (l.map fun d => .vint (Int.ofNat d)))

/-- The fixed `data` fields of `trace_request` (tracer.py lines
189-200), before the extra kwargs are merged in. -/
def requestDataFixed (request_type : String) (request_id : Int)
    (token_ids slot_mapping : Tensor) (token_mask : Option Tensor)
    (layer_granularity dp_id : Int) : PyDict :=
  PyDict.ofList
    [("request_type", .vstr request_type),
     ("request_id", .vint request_id),
     ("token_ids", convertTensorToList (.vtensor token_ids)),
     ("slot_mapping", convertTensorToList (.vtensor slot_mapping)),
     ("token_mask",
       match token_mask with
       | some t => convertTensorToList (.vtensor t)
       | none => .vnone),
     ("layer_granularity", .vint layer_granularity),
     ("dp_id", .vint dp_id),
     ("token_ids_shape", vIntList token_ids.shape),
     ("slot_mapping_shape", vIntList slot_mapping.shape),
     ("token_mask_shape",
       match token_mask with
       | some t => vIntList t.shape
       | none => .vnone)]

/-- The kwargs loop of `trace_request` (tracer.py lines 202-204):
`for key, value in kwargs.items(): data[key] = convert(value)`. -/
def applyKwargs (d : PyDict) : PyDict → PyDict
  | .nil => d
  | .cons k v rest => applyKwargs (dictSet d k (convertTensorToList v)) rest

/-- The full `data` dict of `trace_request`. -/
def requestData (request_type : String) (request_id : Int)
    (token_ids slot_mapping : Tensor) (token_mask : Option Tensor)
    (layer_granularity dp_id : Int) (kwargs : PyDict) : PyDict :=
  applyKwargs
    (requestDataFixed request_type request_id token_ids slot_mapping
      token_mask layer_granularity dp_id)
    kwargs

/-- The record built by `trace_request` (tracer.py lines 206-211), as a
Python value (kwargs may hold arbitrary values, so serialization goes
through `pyToJ`). -/
def requestRecordPy (timestamp request_type : String) (request_id : Int)
    (token_ids slot_mapping : Tensor) (token_mask : Option Tensor)
    (layer_granularity dp_id : Int) (kwargs : PyDict) : PyVal :=
  .vdict (PyDict.ofList
    [("timestamp", .vstr timestamp),
     ("event_type", .vstr "request"),
     ("component", .vstr "KVManager"),
     ("data", .vdict (requestData request_type request_id token_ids
       slot_mapping token_mask layer_granularity dp_id kwargs))])

/-- The keys of the computed fixed fields of a `trace_request` record's
`data` dict. -/
def requestFixedKeys : List String :=
  ["request_type", "request_id", "token_ids", "slot_mapping",
   "token_mask", "layer_granularity", "dp_id", "token_ids_shape",
   "slot_mapping_shape", "token_mask_shape"]

/-- Modelled from the spec: the model-configuration fields consumed by
`trace_config` (the `ModelConfig` class is not part of the tracer
source; field types follow spec section 3, with `dtype` already
taken as its string form since the tracer applies `str()` to it). -/
structure ModelConfigT : Type where
  num_layers : Int
  num_kv_heads : Int
  head_size : Int
  use_mla : Bool
  dtype : String
  tp_size : Int
  dp_size : Int

/-- Modelled from the spec: the cache-configuration fields consumed by
the tracer (the `CacheConfig` class is not part of the tracer source).
Field types follow spec sections 3 and 6: tiering flags are booleans,
layout types are strings (the tracer applies `str()`), counts and sizes
are integers; `remote_config_custom` is an arbitrary Python value;
`evict_ratio_v` models the source field `evict_ratio` (a number; no
claim depends on it being fractional); `remote_file_pfx` models the
source field whose name is `remote_file_` followed by `prefix`. -/
structure CacheConfigT : Type where
  enable_trace : Bool
  trace_file_path : String
  trace_max_file_size_mb : ℚ
  trace_max_files : Nat
  trace_flush_interval_ms : Int
  tokens_per_block : Int
  enable_cpu : Bool
  enable_ssd : Bool
  enable_remote : Bool
  gpu_kv_layout_type : String
  cpu_kv_layout_type : String
  ssd_kv_layout_type : String
  remote_kv_layout_type : String
  use_gds : Bool
  remote_cache_size_mode : String
  num_cpu_blocks : Int
  num_ssd_blocks : Int
  num_remote_blocks : Int
  remote_file_size : Int
  remote_file_num : Int
  remote_file_pfx : String
  ssd_cache_dir : String
  ssd_cache_iouring_entries : Int
  ssd_cache_iouring_flags : Int
  remote_cache_path : String
  remote_config_custom : PyVal
  evict_ratio_v : Int

/-- Modelled from the spec: the GPU-layout fields consumed by
`trace_config` (`type` is already its string form since the tracer
applies `str()`). -/
structure GpuLayoutT : Type where
  gtype : String
  num_layer : Int
  num_block : Int
  tokens_per_block : Int
  num_head : Int
  head_size : Int
  is_mla : Bool

/-- The record built by `trace_config` (tracer.py lines 100-161). -/
def configRecordPy (timestamp : String) (mc : ModelConfigT)
    (cc : CacheConfigT) (gl : Option GpuLayoutT) : PyVal :=
  .vdict (PyDict.ofList
    [("timestamp", .vstr timestamp),
     ("event_type", .vstr "config"),
     ("component", .vstr "KVManager"),
     ("data", .vdict (PyDict.ofList
       [("model_config", .vdict (PyDict.ofList
         [("num_layers", .vint mc.num_layers),
          ("num_kv_heads", .vint mc.num_kv_heads),
          ("head_size", .vint mc.head_size),
          ("use_mla", .vbool mc.use_mla),
          ("dtype", .vstr mc.dtype),
          ("tp_size", .vint mc.tp_size),
          ("dp_size", .vint mc.dp_size)])),
        ("cache_config", .vdict (PyDict.ofList
         [("tokens_per_block", .vint cc.tokens_per_block),
          ("enable_cpu", .vbool cc.enable_cpu),
          ("enable_ssd", .vbool cc.enable_ssd),
          ("enable_remote", .vbool cc.enable_remote),
          ("gpu_kv_layout_type", .vstr cc.gpu_kv_layout_type),
          ("cpu_kv_layout_type", .vstr cc.cpu_kv_layout_type),
          ("ssd_kv_layout_type", .vstr cc.ssd_kv_layout_type),
          ("remote_kv_layout_type", .vstr cc.remote_kv_layout_type),
          ("use_gds", .vbool cc.use_gds),
          ("remote_cache_size_mode", .vstr cc.remote_cache_size_mode),
          ("num_cpu_blocks", .vint cc.num_cpu_blocks),
          ("num_ssd_blocks", .vint cc.num_ssd_blocks),
          ("num_remote_blocks", .vint cc.num_remote_blocks),
          ("remote_file_size", .vint cc.remote_file_size),
          ("remote_file_num", .vint cc.remote_file_num),
          ("remote_file_prefix", .vstr cc.remote_file_pfx),
          ("ssd_cache_dir", .vstr cc.ssd_cache_dir),
          ("ssd_cache_iouring_entries", .vint cc.ssd_cache_iouring_entries),
          ("ssd_cache_iouring_flags", .vint cc.ssd_cache_iouring_flags),
          ("remote_cache_path", .vstr cc.remote_cache_path),
          ("remote_config_custom", cc.remote_config_custom),
          ("evict_ratio", .vint cc.evict_ratio_v)])),
        ("gpu_layout",
          match gl with
          | none => .vnone
          | some g => .vdict (PyDict.ofList
            [("type", .vstr g.gtype),
             ("num_layer", .vint g.num_layer),
             ("num_block", .vint g.num_block),
             ("tokens_per_block", .vint g.tokens_per_block),
             ("num_head", .vint g.num_head),
             ("head_size", .vint g.head_size),
             ("is_mla", .vbool g.is_mla)]))]))])

/-! ## Trace files and rotation

The trace-file generations are modelled positionally: index 0 is the
configured path `P` (the active file), index `i ≥ 1` is `P.i`.  A file
is `some content` or absent (`none`).  `os.path.getsize` is the UTF-8
byte size of the content. -/

def TraceFS : Type := Nat → Option String

/-- One iteration of the rotation loop of `_rotate_files_if_needed`
(tracer.py lines 52-59): `old_file = P.i`, `new_file = P.(i+1)`; when
`P.i` exists it is removed if `i == max_files - 1`, else renamed to
`P.(i+1)`. -/
def rotStep (maxFiles : Nat) (fs : TraceFS) (i : Nat) : TraceFS :=
  match fs i with
  | none => fs
  | some content =>
    if i = maxFiles - 1 then
      fun j => if j = i then none else fs j
    else
      fun j => if j = i then none else if j = i + 1 then some content else fs j

/-- The loop `for i in range(max_files - 1, 0, -1)`: `rotLoopDown
maxFiles fs k` runs the body for `i = k, k-1, …, 1`.  The loop of the
source is `rotLoopDown maxFiles fs (maxFiles - 1)`. -/
def rotLoopDown (maxFiles : Nat) (fs : TraceFS) : Nat → TraceFS
  | 0 => fs
  | k + 1 => rotLoopDown maxFiles (rotStep maxFiles fs (k + 1)) k

/-- The rotation body after the size check: run the loop, then rename
`P` to `P.1` if `P` exists (tracer.py lines 61-63). -/
def rotRename (maxFiles : Nat) (fs : TraceFS) : TraceFS :=
  let fs2 := rotLoopDown maxFiles fs (maxFiles - 1)
  match fs2 0 with
  | none => fs2
  | some c => fun j => if j = 0 then none else if j = 1 then some c else fs2 j

/-- `FlexKVTracer._rotate_files_if_needed` (tracer.py lines 44-63):
no-op when the active file does not exist; otherwise rotate exactly
when `size / (1024 * 1024) >= max_file_size_mb`. -/
def rotateFilesIfNeeded (maxSizeMb : ℚ) (maxFiles : Nat) (fs : TraceFS) : TraceFS :=
  match fs 0 with
  | none => fs
  | some content =>
    if (content.utf8ByteSize : ℚ) / (1024 * 1024) ≥ maxSizeMb then
      rotRename maxFiles fs
    else
      fs

/-- All trace-file generations lie strictly below index `m` (at most
`m` generations: the active file plus `P.1 … P.(m-1)`). -/
def genBound (fs : TraceFS) (m : Nat) : Prop :=
  ∀ i, m ≤ i → fs i = none

theorem rotateFilesIfNeeded_some {fs : TraceFS} {c : String}
    (maxSizeMb : ℚ) (maxFiles : Nat) (h : fs 0 = some c) :
    rotateFilesIfNeeded maxSizeMb maxFiles fs =
      if (c.utf8ByteSize : ℚ) / (1024 * 1024) ≥ maxSizeMb then
        rotRename maxFiles fs
      else fs := by
  unfold rotateFilesIfNeeded
  rw [h]

theorem rotateFilesIfNeeded_none {fs : TraceFS}
    (maxSizeMb : ℚ) (maxFiles : Nat) (h : fs 0 = none) :
    rotateFilesIfNeeded maxSizeMb maxFiles fs = fs := by
  unfold rotateFilesIfNeeded
  rw [h]

theorem rotStep_self (m : Nat) (fs : TraceFS) (i : Nat) :
    rotStep m fs i i = none := by
  unfold rotStep
  cases h : fs i with
  | none => exact h
  | some c =>
    split <;> simp

theorem rotStep_other (m : Nat) (fs : TraceFS) (i j : Nat)
    (hj1 : j ≠ i) (hj2 : j ≠ i + 1) :
    rotStep m fs i j = fs j := by
  unfold rotStep
  cases h : fs i with
  | none => rfl
  | some c =>
    split <;> simp [hj1, hj2]

theorem rotStep_succ_mv (m : Nat) (fs : TraceFS) (i : Nat)
    (hi : i ≠ m - 1) (h2 : fs (i + 1) = none) :
    rotStep m fs i (i + 1) = fs i := by
  unfold rotStep
  cases h : fs i with
  | none => exact h2
  | some c =>
    dsimp only
    rw [if_neg hi]
    simp [(by omega : ¬i + 1 = i)]

theorem rotStep_succ_del (m : Nat) (fs : TraceFS) (i : Nat)
    (hi : i = m - 1) :
    rotStep m fs i (i + 1) = fs (i + 1) := by
  unfold rotStep
  cases h : fs i with
  | none => rfl
  | some c =>
    dsimp only
    rw [if_pos hi]
    simp [(by omega : ¬i + 1 = i)]

/-- Characterization of the partial rotation loop: running the body for
`i = k … 1` (with `k + 1` within the loop range, so every processed
index takes the rename branch, and position `k + 1` already vacated)
leaves position 0 alone, vacates position 1, shifts positions `2 … k+1`
up from their predecessors, and leaves positions above `k + 1`
untouched. -/
theorem rotLoopDown_spec (m : Nat) :
    ∀ (k : Nat) (fs : TraceFS), k + 1 ≤ m - 1 → fs (k + 1) = none →
      (rotLoopDown m fs k) 0 = fs 0 ∧
      (∀ j, 1 ≤ j → j ≤ k + 1 →
        (rotLoopDown m fs k) j = if j = 1 then none else fs (j - 1)) ∧
      (∀ j, k + 2 ≤ j → (rotLoopDown m fs k) j = fs j)
  | 0, fs, _, h2 => by
    refine ⟨rfl, ?_, fun j _ => rfl⟩
    intro j hj1 hj2
    have hj : j = 1 := by omega
    subst hj
    rw [if_pos rfl]
    exact h2
  | k + 1, fs, hk, h2 => by
    have hne : k + 1 ≠ m - 1 := by omega
    have hunf : rotLoopDown m fs (k + 1) =
        rotLoopDown m (rotStep m fs (k + 1)) k := rfl
    have fk1 : (rotStep m fs (k + 1)) (k + 1) = none :=
      rotStep_self m fs (k + 1)
    have fk2 : (rotStep m fs (k + 1)) (k + 2) = fs (k + 1) :=
      rotStep_succ_mv m fs (k + 1) hne h2
    have fother : ∀ j, j ≠ k + 1 → j ≠ k + 2 → (rotStep m fs (k + 1)) j = fs j :=
      fun j hj1 hj2 => rotStep_other m fs (k + 1) j hj1 hj2
    obtain ⟨a, b, c⟩ :=
      rotLoopDown_spec m k (rotStep m fs (k + 1)) (by omega) fk1
    rw [hunf]
    refine ⟨a.trans (fother 0 (by omega) (by omega)), ?_, ?_⟩
    · intro j hj1 hj2
      rcases Nat.lt_or_ge j (k + 2) with hlt | hge
      · rw [b j hj1 (by omega)]
        rcases Nat.eq_or_lt_of_le hj1 with h1 | h1
        · rw [if_pos h1.symm, if_pos h1.symm]
        · rw [if_neg (by omega), if_neg (by omega)]
          exact fother (j - 1) (by omega) (by omega)
      · have hj : j = k + 2 := by omega
        subst hj
        rw [c (k + 2) (le_refl _), if_neg (by omega), fk2]
        congr 1
    · intro j hj
      rw [c j (by omega)]
      exact fother j (by omega) (by omega)

theorem rotRename_eq_of_some {m : Nat} {fs : TraceFS} {c : String}
    (h : rotLoopDown m fs (m - 1) 0 = some c) :
    rotRename m fs = fun j =>
      if j = 0 then none
      else if j = 1 then some c
      else rotLoopDown m fs (m - 1) j := by
  unfold rotRename
  dsimp only
  rw [h]

/-- Full characterization of the rotation body for `max_files = p + 2`
(any configured value of at least 2) when the active file exists: the
active file becomes generation 1, generations 1 … max_files−2 shift up
by one, the previous oldest generation (index `max_files - 1`) is
discarded, and indices at or above `max_files` are untouched. -/
theorem rotRename_spec (p : Nat) (fs : TraceFS) (c : String) (h0 : fs 0 = some c) :
    rotRename (p + 2) fs 0 = none ∧
    rotRename (p + 2) fs 1 = some c ∧
    (∀ j, 2 ≤ j → j ≤ p + 1 → rotRename (p + 2) fs j = fs (j - 1)) ∧
    (∀ j, p + 2 ≤ j → rotRename (p + 2) fs j = fs j) := by
  have hstep : rotLoopDown (p + 2) fs (p + 2 - 1) =
      rotLoopDown (p + 2) (rotStep (p + 2) fs (p + 1)) p := rfl
  have fk1 : (rotStep (p + 2) fs (p + 1)) (p + 1) = none :=
    rotStep_self (p + 2) fs (p + 1)
  have fother : ∀ j, j ≠ p + 1 → (rotStep (p + 2) fs (p + 1)) j = fs j := by
    intro j hj
    rcases eq_or_ne j (p + 2) with rfl | hj2
    · exact rotStep_succ_del (p + 2) fs (p + 1) (by omega)
    · exact rotStep_other (p + 2) fs (p + 1) j hj hj2
  obtain ⟨a, b, cc⟩ :=
    rotLoopDown_spec (p + 2) p (rotStep (p + 2) fs (p + 1)) (by omega) fk1
  have h20 : rotLoopDown (p + 2) fs (p + 2 - 1) 0 = some c := by
    rw [hstep, a, fother 0 (by omega), h0]
  rw [rotRename_eq_of_some h20]
  refine ⟨by simp, by simp, ?_, ?_⟩
  · intro j hj1 hj2
    simp only [if_neg (by omega : ¬j = 0), if_neg (by omega : ¬j = 1)]
    rw [hstep, b j (by omega) (by omega), if_neg (by omega)]
    exact fother (j - 1) (by omega)
  · intro j hj
    simp only [if_neg (by omega : ¬j = 0), if_neg (by omega : ¬j = 1)]
    rw [hstep, cc j (by omega)]
    exact fother j (by omega)

/-! ## Tracer state, world and operations

`World` is the filesystem as seen by one tracer: whether the parent
directory of `trace_file_path` has been created, and the trace-file
generations.  `EnState` is the mutable state an enabled tracer
allocates in `__init__` (`_buffer` and `_last_flush_time`; the lock
serializes the sequential executions modelled here). -/

structure World : Type where
  dirMade : Bool
  fs : TraceFS

structure EnState : Type where
  buffer : List String
  lastFlush : Int

/-- The text of the active trace file (empty when the file does not
exist yet; `open(path, 'a')` creates it). -/
def fileContent (w : World) : String :=
  (w.fs 0).getD ""

/-- `FlexKVTracer._write_to_file` (tracer.py lines 76-79): append
`json_record + '\n'` to the active file, opened in append mode. -/
def writeToFile (w : World) (json_record : String) : World :=
  { w with
    fs := fun j =>
      if j = 0 then some (fileContent w ++ (json_record ++ "\n")) else w.fs j }

def writeAll (w : World) (records : List String) : World :=
  records.foldl writeToFile w

/-- `FlexKVTracer._flush_buffer` (tracer.py lines 81-93), with the
writer's possible I/O failure made explicit: `failAt = some k` means
the `open`/`write` for the k-th record of this drain raises.  Returns
the new state, the new world, and whether the drain completed without
an exception.  An early return happens when the buffer is empty; on an
exception the buffer has already been cleared, only the records before
`k` are on disk, and `_last_flush_time` is not updated. -/
def flushBufferF (failAt : Option Nat) (now : Int) (st : EnState) (w : World) :
    EnState × World × Bool :=
  if st.buffer.isEmpty then (st, w, true)
  else
    match failAt with
    | none => (⟨[], now⟩, writeAll w st.buffer, true)
    | some k =>
      if k < st.buffer.length then
        (⟨[], st.lastFlush⟩, writeAll w (st.buffer.take k), false)
      else
        (⟨[], now⟩, writeAll w st.buffer, true)

/-- `_flush_buffer` with a writer that does not fail. -/
def flushBuffer (now : Int) (st : EnState) (w : World) : EnState × World :=
  ((flushBufferF none now st w).1, (flushBufferF none now st w).2.1)

/-- One `trace_wait_request` call on an enabled tracer: the call's
`time.time()` value, `datetime.now().isoformat()` timestamp, and
arguments. -/
structure WaitCall : Type where
  now : Int
  timestamp : String
  wait_type : String
  task_ids : TaskIds
  layer_group_id : Option Int

/-- The serialized text record of one wait call. -/
def serWait (c : WaitCall) : String :=
  waitJsonRecord c.timestamp c.wait_type c.task_ids c.layer_group_id

/-- `FlexKVTracer.trace_wait_request` on an enabled tracer (tracer.py
lines 228-256): build and serialize the record, append it to the
buffer under the lock, then flush if the flush interval has elapsed. -/
def traceWaitRequestOp (flushIntervalMs : Int) (c : WaitCall)
    (st : EnState) (w : World) : EnState × World :=
  let json_record := serWait c
  let st1 : EnState := ⟨st.buffer ++ [json_record], st.lastFlush⟩
  if (c.now - st.lastFlush) * 1000 ≥ flushIntervalMs then
    flushBuffer c.now st1 w
  else
    (st1, w)

/-- A sequence of `trace_wait_request` calls, in lock-acquisition
order. -/
def runWaitCalls (flushIntervalMs : Int) :
    List WaitCall → EnState → World → EnState × World
  | [], st, w => (st, w)
  | c :: cs, st, w =>
    let p := traceWaitRequestOp flushIntervalMs c st w
    runWaitCalls flushIntervalMs cs p.1 p.2

/-- A tracer: `enable_trace=False` leaves a terminally disabled object
with no state; otherwise the tracer holds its configuration and its
buffer state. -/
inductive Tracer : Type where
  | disabled : Tracer
  | enabled : CacheConfigT → EnState → Tracer

/-- `FlexKVTracer.__init__` (tracer.py lines 16-32): when disabled,
return immediately with no side effects; when enabled, allocate the
buffer state, create the parent directory of the trace path
(`os.makedirs(..., exist_ok=True)`), and run the rotation check. -/
def FlexKVTracer.init (cc : CacheConfigT) (now : Int) (w : World) :
    Tracer × World :=
  if cc.enable_trace then
    (.enabled cc ⟨[], now⟩,
      { dirMade := true,
        fs := rotateFilesIfNeeded cc.trace_max_file_size_mb cc.trace_max_files w.fs })
  else
    (.disabled, w)

/-- `FlexKVTracer.flush` (tracer.py lines 258-263): no-op when
disabled, otherwise `_flush_buffer`. -/
def Tracer.flush (failAt : Option Nat) (now : Int) :
    Tracer → World → Tracer × World × Bool
  | .disabled, w => (.disabled, w, true)
  | .enabled cc st, w =>
    match flushBufferF failAt now st w with
    | (st2, w2, ok) => (.enabled cc st2, w2, ok)

/-- `FlexKVTracer.trace_wait_request` including the disabled gate
(tracer.py lines 225-226). -/
def Tracer.traceWaitRequest (c : WaitCall) :
    Tracer → World → Tracer × World
  | .disabled, w => (.disabled, w)
  | .enabled cc st, w =>
    match traceWaitRequestOp cc.trace_flush_interval_ms c st w with
    | (st2, w2) => (.enabled cc st2, w2)

/-- The arguments of one `trace_request` call. -/
structure RequestCall : Type where
  now : Int
  timestamp : String
  request_type : String
  request_id : Int
  token_ids : Tensor
  slot_mapping : Tensor
  token_mask : Option Tensor
  layer_granularity : Int
  dp_id : Int
  kwargs : PyDict

/-- `FlexKVTracer.trace_request` including the disabled gate (tracer.py
lines 183-184).  When the record is not JSON-serializable,
`json.dumps` raises before anything is appended (the `False` result);
the enabled tracer otherwise appends the serialized record and flushes
if the interval has elapsed. -/
def Tracer.traceRequest (c : RequestCall) :
    Tracer → World → Tracer × World × Bool
  | .disabled, w => (.disabled, w, true)
  | .enabled cc st, w =>
    match pyToJ (requestRecordPy c.timestamp c.request_type c.request_id
        c.token_ids c.slot_mapping c.token_mask c.layer_granularity
        c.dp_id c.kwargs) with
    | none => (.enabled cc st, w, false)
    | some j =>
      let st1 : EnState := ⟨st.buffer ++ [dumps j], st.lastFlush⟩
      if (c.now - st.lastFlush) * 1000 ≥ cc.trace_flush_interval_ms then
        match flushBuffer c.now st1 w with
        | (st2, w2) => (.enabled cc st2, w2, true)
      else
        (.enabled cc st1, w, true)

/-- The arguments of one `trace_config` call. -/
structure ConfigCall : Type where
  now : Int
  timestamp : String
  model_config : ModelConfigT
  cache_config : CacheConfigT
  gpu_layout : Option GpuLayoutT

/-- `FlexKVTracer.trace_config` including the disabled gate (tracer.py
lines 97-98). -/
def Tracer.traceConfig (c : ConfigCall) :
    Tracer → World → Tracer × World × Bool
  | .disabled, w => (.disabled, w, true)
  | .enabled cc st, w =>
    match pyToJ (configRecordPy c.timestamp c.model_config c.cache_config
        c.gpu_layout) with
    | none => (.enabled cc st, w, false)
    | some j =>
      let st1 : EnState := ⟨st.buffer ++ [dumps j], st.lastFlush⟩
      if (c.now - st.lastFlush) * 1000 ≥ cc.trace_flush_interval_ms then
        match flushBuffer c.now st1 w with
        | (st2, w2) => (.enabled cc st2, w2, true)
      else
        (.enabled cc st1, w, true)

/-! ## Flush and run characterizations -/

theorem joinLines_append : ∀ a b : List String,
    joinLines (a ++ b) = joinLines a ++ joinLines b
  | [], b => by simp [joinLines]
  | r :: a, b => by
    show (r ++ "\n") ++ joinLines (a ++ b) = ((r ++ "\n") ++ joinLines a) ++ joinLines b
    rw [joinLines_append a b]
    exact (String.append_assoc _ _ _).symm

theorem fileContent_writeToFile (w : World) (r : String) :
    fileContent (writeToFile w r) = fileContent w ++ (r ++ "\n") := by
  simp [fileContent, writeToFile]

theorem fileContent_writeAll : ∀ (records : List String) (w : World),
    fileContent (writeAll w records) = fileContent w ++ joinLines records
  | [], w => by
    show fileContent w = fileContent w ++ ""
    rw [String.append_empty]
  | r :: rs, w => by
    show fileContent (writeAll (writeToFile w r) rs) = fileContent w ++ joinLines (r :: rs)
    rw [fileContent_writeAll rs (writeToFile w r), fileContent_writeToFile]
    show _ = fileContent w ++ ((r ++ "\n") ++ joinLines rs)
    rw [String.append_assoc]

theorem flushBuffer_eq_empty (now : Int) (st : EnState) (w : World)
    (h : st.buffer = []) :
    flushBuffer now st w = (st, w) := by
  unfold flushBuffer flushBufferF
  rw [h]
  rfl

theorem flushBuffer_eq_nonempty (now : Int) (st : EnState) (w : World)
    (h : st.buffer ≠ []) :
    flushBuffer now st w = (⟨[], now⟩, writeAll w st.buffer) := by
  unfold flushBuffer flushBufferF
  rw [if_neg (by simpa using h)]

/-- A non-failing `_flush_buffer` empties the buffer and appends every
buffered record to the active file in order. -/
theorem fileContent_flushBuffer (now : Int) (st : EnState) (w : World) :
    fileContent (flushBuffer now st w).2 = fileContent w ++ joinLines st.buffer ∧
    (flushBuffer now st w).1.buffer = [] := by
  cases h : st.buffer with
  | nil =>
    rw [flushBuffer_eq_empty now st w h]
    exact ⟨by simp [joinLines], h⟩
  | cons r rs =>
    rw [flushBuffer_eq_nonempty now st w (by rw [h]; simp)]
    exact ⟨by rw [fileContent_writeAll, h], rfl⟩

/-- Run invariant: the file content followed by the still-buffered
records always equals the initial content followed by all records, in
lock-acquisition order.  No record is lost or duplicated regardless of
which calls trigger an interval flush. -/
theorem runWaitCalls_inv (iv : Int) :
    ∀ (cs : List WaitCall) (st : EnState) (w : World),
      fileContent (runWaitCalls iv cs st w).2 ++
          joinLines (runWaitCalls iv cs st w).1.buffer =
        fileContent w ++ joinLines (st.buffer ++ cs.map serWait)
  | [], st, w => by
    show fileContent w ++ joinLines st.buffer =
      fileContent w ++ joinLines (st.buffer ++ [])
    rw [List.append_nil]
  | c :: cs, st, w => by
    have hunf : runWaitCalls iv (c :: cs) st w =
        runWaitCalls iv cs (traceWaitRequestOp iv c st w).1
          (traceWaitRequestOp iv c st w).2 := rfl
    rw [hunf, runWaitCalls_inv iv cs (traceWaitRequestOp iv c st w).1
      (traceWaitRequestOp iv c st w).2]
    have hop : traceWaitRequestOp iv c st w =
        if (c.now - st.lastFlush) * 1000 ≥ iv then
          flushBuffer c.now ⟨st.buffer ++ [serWait c], st.lastFlush⟩ w
        else (⟨st.buffer ++ [serWait c], st.lastFlush⟩, w) := rfl
    rw [hop]
    split
    · obtain ⟨hc, hb⟩ := fileContent_flushBuffer c.now
        ⟨st.buffer ++ [serWait c], st.lastFlush⟩ w
      rw [hb, hc]
      show (fileContent w ++ joinLines (st.buffer ++ [serWait c])) ++
          joinLines (cs.map serWait) =
        fileContent w ++ joinLines (st.buffer ++ serWait c :: cs.map serWait)
      rw [String.append_assoc, ← joinLines_append,
        List.append_assoc, List.singleton_append]
    · show fileContent w ++ joinLines ((st.buffer ++ [serWait c]) ++ cs.map serWait) =
        fileContent w ++ joinLines (st.buffer ++ serWait c :: cs.map serWait)
      rw [List.append_assoc, List.singleton_append]

/-! ## Normalization lemmas -/

mutual

theorem isNormalized_tolist : ∀ t : NList, isNormalized (tolist t) = true
  | .scalar _ => rfl
  | .arr xs => isNormalizedL_tolistL xs

theorem isNormalizedL_tolistL : ∀ xs : NListL, isNormalizedL (tolistL xs) = true
  | .nil => rfl
  | .cons x xs => by
    show (isNormalized (tolist x) && isNormalizedL (tolistL xs)) = true
    rw [isNormalized_tolist x, isNormalizedL_tolistL xs]
    rfl

end

mutual

theorem convert_of_normalized :
    ∀ v : PyVal, isNormalized v = true → convertTensorToList v = v
  | .vint _, _ => rfl
  | .vstr _, _ => rfl
  | .vbool _, _ => rfl
  | .vnone, _ => rfl
  | .vlist xs, h => by
    show PyVal.vlist (convertList xs) = PyVal.vlist xs
    rw [convertList_of_normalized xs h]
  | .vdict kvs, h => by
    show PyVal.vdict (convertDict kvs) = PyVal.vdict kvs
    rw [convertDict_of_normalized kvs h]

theorem convertList_of_normalized :
    ∀ xs : PyList, isNormalizedL xs = true → convertList xs = xs
  | .nil, _ => rfl
  | .cons x xs, h => by
    have hx : isNormalized x = true := by
      have := h
      simp only [isNormalizedL, Bool.and_eq_true] at this
      exact this.1
    have hxs : isNormalizedL xs = true := by
      have := h
      simp only [isNormalizedL, Bool.and_eq_true] at this
      exact this.2
    show PyList.cons (convertTensorToList x) (convertList xs) = PyList.cons x xs
    rw [convert_of_normalized x hx, convertList_of_normalized xs hxs]

theorem convertDict_of_normalized :
    ∀ kvs : PyDict, isNormalizedD kvs = true → convertDict kvs = kvs
  | .nil, _ => rfl
  | .cons k v kvs, h => by
    have hv : isNormalized v = true := by
      have := h
      simp only [isNormalizedD, Bool.and_eq_true] at this
      exact this.1
    have hkvs : isNormalizedD kvs = true := by
      have := h
      simp only [isNormalizedD, Bool.and_eq_true] at this
      exact this.2
    show PyDict.cons k (convertTensorToList v) (convertDict kvs) = PyDict.cons k v kvs
    rw [convert_of_normalized v hv, convertDict_of_normalized kvs hkvs]

end

mutual

theorem isNormalized_convert : ∀ v : PyVal, isNormalized (convertTensorToList v) = true
  | .vint _ => rfl
  | .vstr _ => rfl
  | .vbool _ => rfl
  | .vnone => rfl
  | .vtensor t => isNormalized_tolist t.elems
  | .vlist xs => isNormalizedL_convertList xs
  | .vtuple xs => isNormalizedL_convertList xs
  | .vdict kvs => isNormalizedD_convertDict kvs

theorem isNormalizedL_convertList :
    ∀ xs : PyList, isNormalizedL (convertList xs) = true
  | .nil => rfl
  | .cons x xs => by
    show (isNormalized (convertTensorToList x) && isNormalizedL (convertList xs)) = true
    rw [isNormalized_convert x, isNormalizedL_convertList xs]
    rfl

theorem isNormalizedD_convertDict :
    ∀ kvs : PyDict, isNormalizedD (convertDict kvs) = true
  | .nil => rfl
  | .cons k v kvs => by
    show (isNormalized (convertTensorToList v) && isNormalizedD (convertDict kvs)) = true
    rw [isNormalized_convert v, isNormalizedD_convertDict kvs]
    rfl

end

/-! ## Serializability lemmas -/

mutual

theorem pyToJ_tolist_isSome : ∀ t : NList, (pyToJ (tolist t)).isSome = true
  | .scalar _ => rfl
  | .arr xs => by
    show ((pyToJList (tolistL xs)).map JVal.jarr).isSome = true
    obtain ⟨js, hjs⟩ := Option.isSome_iff_exists.mp (pyToJList_tolistL_isSome xs)
    rw [hjs]
    rfl

theorem pyToJList_tolistL_isSome :
    ∀ xs : NListL, (pyToJList (tolistL xs)).isSome = true
  | .nil => rfl
  | .cons x xs => by
    show (match pyToJ (tolist x), pyToJList (tolistL xs) with
      | some j, some js => some (JArr.cons j js)
      | _, _ => none).isSome = true
    obtain ⟨j, hj⟩ := Option.isSome_iff_exists.mp (pyToJ_tolist_isSome x)
    obtain ⟨js, hjs⟩ := Option.isSome_iff_exists.mp (pyToJList_tolistL_isSome xs)
    rw [hj, hjs]
    rfl

end

theorem pyToJList_ints_isSome (l : List Nat) :
    (pyToJList (PyList.ofList (l.map fun d => .vint (Int.ofNat d)))).isSome = true := by
  induction l with
  | nil => rfl
  | cons d l ih =>
    show (match pyToJ (.vint (Int.ofNat d)),
        pyToJList (PyList.ofList (l.map fun d => .vint (Int.ofNat d))) with
      | some j, some js => some (JArr.cons j js)
      | _, _ => none).isSome = true
    obtain ⟨js, hjs⟩ := Option.isSome_iff_exists.mp ih
    rw [hjs]
    rfl

theorem pyToJ_vIntList_isSome (l : List Nat) :
    (pyToJ (vIntList l)).isSome = true := by
  show ((pyToJList (PyList.ofList (l.map fun d => .vint (Int.ofNat d)))).map JVal.jarr).isSome = true
  obtain ⟨js, hjs⟩ := Option.isSome_iff_exists.mp (pyToJList_ints_isSome l)
  rw [hjs]
  rfl

/-! ## Dict lemmas for the kwargs merge -/

theorem dictGet_dictSet_self : ∀ (d : PyDict) (k : String) (v : PyVal),
    dictGet (dictSet d k v) k = some v
  | .nil, k, v => by simp [dictSet, dictGet]
  | .cons k2 v2 rest, k, v => by
    unfold dictSet
    split
    · rename_i h
      unfold dictGet
      rw [if_pos h]
    · rename_i h
      unfold dictGet
      rw [if_neg h]
      exact dictGet_dictSet_self rest k v

theorem dictGet_dictSet_other : ∀ (d : PyDict) (k k2 : String) (v : PyVal),
    k ≠ k2 → dictGet (dictSet d k v) k2 = dictGet d k2
  | .nil, k, k2, v, hne => by
    simp [dictSet, dictGet, hne]
  | .cons k3 v3 rest, k, k2, v, hne => by
    unfold dictSet
    split
    · rename_i h
      have h2 : k3 ≠ k2 := fun hh => hne (h.symm.trans hh)
      unfold dictGet
      rw [if_neg h2, if_neg h2]
    · rename_i h
      unfold dictGet
      rcases eq_or_ne k3 k2 with h2 | h2
      · rw [if_pos h2, if_pos h2]
      · rw [if_neg h2, if_neg h2]
        exact dictGet_dictSet_other rest k k2 v hne

theorem applyKwargs_get_notin : ∀ (kws d : PyDict) (k : String),
    k ∉ dictKeys kws → dictGet (applyKwargs d kws) k = dictGet d k
  | .nil, d, k, _ => rfl
  | .cons k2 v2 rest, d, k, hk => by
    have hne : k2 ≠ k := by
      intro h
      exact hk (h ▸ List.mem_cons_self k2 (dictKeys rest))
    have hrest : k ∉ dictKeys rest := by
      intro h
      exact hk (List.mem_cons_of_mem k2 h)
    show dictGet (applyKwargs (dictSet d k2 (convertTensorToList v2)) rest) k = dictGet d k
    rw [applyKwargs_get_notin rest _ k hrest,
      dictGet_dictSet_other d k2 k (convertTensorToList v2) hne]

/-- A kwarg entry always ends up in the merged dict at its key, with
its value normalized — replacing whatever the dict held there. -/
theorem applyKwargs_get_mem : ∀ (kws d : PyDict) (k : String) (v : PyVal),
    (dictKeys kws).Nodup → dictGet kws k = some v →
    dictGet (applyKwargs d kws) k = some (convertTensorToList v)
  | .nil, d, k, v, _, hget => by cases hget
  | .cons k2 v2 rest, d, k, v, hnd, hget => by
    have hnd2 : (dictKeys rest).Nodup ∧ k2 ∉ dictKeys rest := by
      have := hnd
      rw [dictKeys, List.nodup_cons] at this
      exact ⟨this.2, this.1⟩
    rcases eq_or_ne k2 k with rfl | hne
    · have hv : v2 = v := by
        have : dictGet (PyDict.cons k2 v2 rest) k2 = some v := hget
        rw [dictGet, if_pos rfl] at this
        exact Option.some.inj this
      subst hv
      show dictGet (applyKwargs (dictSet d k2 (convertTensorToList v2)) rest) k2 =
        some (convertTensorToList v2)
      rw [applyKwargs_get_notin rest _ k2 hnd2.2, dictGet_dictSet_self]
    · have hget2 : dictGet rest k = some v := by
        have : dictGet (PyDict.cons k2 v2 rest) k = some v := hget
        rw [dictGet, if_neg hne] at this
        exact this
      show dictGet (applyKwargs (dictSet d k2 (convertTensorToList v2)) rest) k =
        some (convertTensorToList v)
      exact applyKwargs_get_mem rest _ k v hnd2.1 hget2

/-! ## Example constants for witnesses and counterexamples -/

/-- A filesystem holding only the active trace file. -/
def fsEx1 : TraceFS := fun j => if j = 0 then some "x" else none

/-- An empty world: directory absent, no trace files. -/
def w0Ex : World := ⟨false, fun _ => none⟩

/-- A concrete configuration with tracing disabled (fields in
declaration order of `CacheConfigT`). -/
def ccEx : CacheConfigT :=
  ⟨false, "/tmp/flexkv/trace.log", 100, 5, 1000, 16, true, false, false,
   "L", "L", "L", "L", false, "m", 1, 0, 0, 0, 0, "p", "/tmp/ssd", 0, 0,
   "/tmp/r", .vnone, 0⟩

/-- The same configuration with tracing enabled. -/
def ccEn : CacheConfigT :=
  ⟨true, "/tmp/flexkv/trace.log", 100, 5, 1000, 16, true, false, false,
   "L", "L", "L", "L", false, "m", 1, 0, 0, 0, 0, "p", "/tmp/ssd", 0, 0,
   "/tmp/r", .vnone, 0⟩

theorem genBound_fsEx1 (m : Nat) (hm : 1 ≤ m) : genBound fsEx1 m := by
  intro i hi
  unfold fsEx1
  rw [if_neg (by omega)]

/-! ## Equations for the failing and non-failing flush -/

theorem flushBufferF_empty (failAt : Option Nat) (now : Int) (st : EnState)
    (w : World) (h : st.buffer = []) :
    flushBufferF failAt now st w = (st, w, true) := by
  unfold flushBufferF
  rw [h]
  rfl

theorem flushBufferF_none_nonempty (now : Int) (st : EnState) (w : World)
    (h : st.buffer ≠ []) :
    flushBufferF none now st w = (⟨[], now⟩, writeAll w st.buffer, true) := by
  unfold flushBufferF
  rw [if_neg (by simpa using h)]

theorem flushBufferF_fail (now : Int) (st : EnState) (w : World) (k : Nat)
    (h : st.buffer ≠ []) (hk : k < st.buffer.length) :
    flushBufferF (some k) now st w =
      (⟨[], st.lastFlush⟩, writeAll w (st.buffer.take k), false) := by
  unfold flushBufferF
  rw [if_neg (by simpa using h)]
  show (if k < st.buffer.length then _ else _) = _
  rw [if_pos hk]

theorem tracerFlush_enabled (failAt : Option Nat) (now : Int)
    (cc : CacheConfigT) (st : EnState) (w : World) :
    Tracer.flush failAt now (.enabled cc st) w =
      (.enabled cc (flushBufferF failAt now st w).1,
        (flushBufferF failAt now st w).2.1,
        (flushBufferF failAt now st w).2.2) := by
  show (match flushBufferF failAt now st w with
    | (st2, w2, ok) => ((Tracer.enabled cc st2 : Tracer), w2, ok)) = _
  rcases h : flushBufferF failAt now st w with ⟨st2, w2, ok⟩
  rfl

/-! ## Claim theorems -/

/-- C5: for a tracer constructed with `enable_trace=false`,
construction and every public method (`trace_config`, `trace_request`,
`trace_wait_request`, `flush`) are no-ops with zero side effects: no
directory is created, no file is created or written, and no buffer or
timestamp state is allocated or mutated, for the object's entire
life. -/
theorem disabled_tracer_noop (cc : CacheConfigT)
    (h : cc.enable_trace = false) (now : Int) (w : World) :
    FlexKVTracer.init cc now w = (.disabled, w) ∧
    (∀ (c : WaitCall) (w2 : World),
      Tracer.traceWaitRequest c .disabled w2 = (.disabled, w2)) ∧
    (∀ (c : RequestCall) (w2 : World),
      Tracer.traceRequest c .disabled w2 = (.disabled, w2, true)) ∧
    (∀ (c : ConfigCall) (w2 : World),
      Tracer.traceConfig c .disabled w2 = (.disabled, w2, true)) ∧
    (∀ (failAt : Option Nat) (now2 : Int) (w2 : World),
      Tracer.flush failAt now2 .disabled w2 = (.disabled, w2, true)) := by
  refine ⟨?_, fun c w2 => rfl, fun c w2 => rfl, fun c w2 => rfl,
    fun failAt now2 w2 => rfl⟩
  unfold FlexKVTracer.init
  rw [h]
  rfl

theorem disabled_tracer_noop_witness :
    ccEx.enable_trace = false ∧
    FlexKVTracer.init ccEx 0 w0Ex = (.disabled, w0Ex) :=
  ⟨rfl, (disabled_tracer_noop ccEx rfl 0 w0Ex).1⟩

/-- C2 (amended): on an enabled tracer, `flush()` performs the drain
unconditionally (not gated on the flush interval): afterwards the
buffer is empty and every previously buffered record has been handed to
the writer in order; the last-flush timestamp is reset to the current
time exactly when the buffer was non-empty — a `flush()` on an empty
buffer returns early and leaves the timestamp unchanged. -/
theorem flush_drains (cc : CacheConfigT) (st : EnState) (w : World)
    (now : Int) :
    (Tracer.flush none now (.enabled cc st) w).2.2 = true ∧
    (Tracer.flush none now (.enabled cc st) w).1 =
      .enabled cc ⟨[], if st.buffer = [] then st.lastFlush else now⟩ ∧
    fileContent (Tracer.flush none now (.enabled cc st) w).2.1 =
      fileContent w ++ joinLines st.buffer := by
  rw [tracerFlush_enabled]
  cases h : st.buffer with
  | nil =>
    rw [flushBufferF_empty none now st w h]
    refine ⟨rfl, ?_, ?_⟩
    · rw [if_pos rfl]
      cases st with
      | mk b t =>
        simp only at h
        subst h
        rfl
    · rw [joinLines, String.append_empty]
  | cons r rs =>
    rw [flushBufferF_none_nonempty now st w (by rw [h]; simp)]
    refine ⟨rfl, ?_, ?_⟩
    · rw [if_neg (by simp)]
    · rw [fileContent_writeAll, h]

theorem flush_drains_witness :
    (Tracer.flush none 5 (.enabled ccEn ⟨["r"], 0⟩) w0Ex).1 =
      .enabled ccEn ⟨[], if (["r"] : List String) = [] then 0 else 5⟩ :=
  (flush_drains ccEn ⟨["r"], 0⟩ w0Ex 5).2.1

/-- C2 counterexample: the claim as stated asserts that `flush()` on an
enabled tracer resets the last-flush timestamp to the current time even
when the buffer is empty; but `_flush_buffer` returns early on an empty
buffer, so at current time 5 the timestamp stays 0. -/
theorem flush_empty_no_reset :
    (Tracer.flush none 5 (.enabled ccEn ⟨[], 0⟩) w0Ex).1 =
      .enabled ccEn ⟨[], 0⟩ ∧ (0 : Int) ≠ 5 :=
  ⟨rfl, by decide⟩

/-- C3: on an enabled tracer with a non-empty buffer, if the writer
raises at the k-th record of a drain, the batch is not re-queued: the
queue was emptied before writing, so the buffer is empty afterwards,
only the records before k reached the file (the rest are dropped), the
exception propagates, and the last-flush timestamp is not updated. -/
theorem flush_failure_drops (cc : CacheConfigT) (st : EnState) (w : World)
    (now : Int) (k : Nat) (hne : st.buffer ≠ []) (hk : k < st.buffer.length) :
    Tracer.flush (some k) now (.enabled cc st) w =
      (.enabled cc ⟨[], st.lastFlush⟩, writeAll w (st.buffer.take k), false) ∧
    fileContent (writeAll w (st.buffer.take k)) =
      fileContent w ++ joinLines (st.buffer.take k) := by
  rw [tracerFlush_enabled, flushBufferF_fail now st w k hne hk]
  exact ⟨rfl, fileContent_writeAll _ w⟩

theorem flush_failure_drops_witness :
    (["a", "b"] : List String) ≠ [] ∧ 1 < (["a", "b"] : List String).length ∧
    Tracer.flush (some 1) 9 (.enabled ccEn ⟨["a", "b"], 7⟩) w0Ex =
      (.enabled ccEn ⟨[], 7⟩, writeAll w0Ex (["a", "b"].take 1), false) :=
  ⟨by decide, by decide,
    (flush_failure_drops ccEn ⟨["a", "b"], 7⟩ w0Ex 9 1 (by decide) (by decide)).1⟩

/-- C1 (amended): for every configured `max_files ≥ 2`, rotation
preserves the generation bound — if all existing trace files lie at
indices below `max_files` (the active file plus `P.1 … P.(max_files-1)`)
then they still do after `_rotate_files_if_needed`, so no file with
suffix index `max_files` or greater is ever created; moreover, when
rotation triggers, the active file becomes `P.1`, each surviving
generation shifts up by one, and the oldest generation
(`P.(max_files-1)`) is the one discarded.  (For `max_files = 1` the
source still renames the active file to `P.1`, creating suffix index
`max_files`; see the counterexample.) -/
theorem rotation_invariant (th : ℚ) (m : Nat) (fs : TraceFS)
    (hm : 2 ≤ m) (hb : genBound fs m) :
    genBound (rotateFilesIfNeeded th m fs) m ∧
    (∀ c, fs 0 = some c → (c.utf8ByteSize : ℚ) / (1024 * 1024) ≥ th →
      rotateFilesIfNeeded th m fs 0 = none ∧
      rotateFilesIfNeeded th m fs 1 = some c ∧
      (∀ j, 2 ≤ j → j + 1 ≤ m → rotateFilesIfNeeded th m fs j = fs (j - 1))) := by
  obtain ⟨p, rfl⟩ : ∃ p, m = p + 2 := ⟨m - 2, by omega⟩
  cases h0 : fs 0 with
  | none =>
    rw [rotateFilesIfNeeded_none th (p + 2) h0]
    refine ⟨hb, ?_⟩
    intro c hc
    simp at hc
  | some c0 =>
    rw [rotateFilesIfNeeded_some th (p + 2) h0]
    split
    · rename_i htr
      obtain ⟨r0, r1, rmid, rhigh⟩ := rotRename_spec p fs c0 h0
      refine ⟨?_, ?_⟩
      · intro i hi
        rw [rhigh i hi]
        exact hb i hi
      · intro c hc htr2
        obtain rfl : c0 = c := Option.some.inj hc
        exact ⟨r0, r1, fun j hj1 hj2 => rmid j hj1 (by omega)⟩
    · rename_i htr
      refine ⟨hb, ?_⟩
      intro c hc htr2
      obtain rfl : c0 = c := Option.some.inj hc
      exact absurd htr2 htr

theorem rotation_invariant_witness :
    genBound fsEx1 2 ∧ rotateFilesIfNeeded 0 2 fsEx1 3 = none :=
  ⟨genBound_fsEx1 2 (by omega),
    (rotation_invariant 0 2 fsEx1 (by omega) (genBound_fsEx1 2 (by omega))).1
      3 (by omega)⟩

/-- C1 counterexample: the claim quantifies over every `max_files ≥ 1`,
but with `max_files = 1` the rotation loop body never runs and the
final rename still moves the active file to `P.1` — a file with suffix
index `1 = max_files` is created, so more than `max_files` generations
can exist.  Concretely: from a filesystem holding only the active file
(satisfying the `max_files = 1` bound), rotation with threshold 0
produces a file at index 1. -/
theorem rotation_maxfiles_one_violation :
    genBound fsEx1 1 ∧ rotateFilesIfNeeded 0 1 fsEx1 1 = some "x" := by
  refine ⟨genBound_fsEx1 1 (by omega), ?_⟩
  rw [rotateFilesIfNeeded_some 0 1 (show fsEx1 0 = some "x" from rfl),
    if_pos (by positivity)]
  rw [show rotRename 1 fsEx1 =
    fun j => if j = 0 then none else if j = 1 then some "x" else fsEx1 j
    from rotRename_eq_of_some (show rotLoopDown 1 fsEx1 (1 - 1) 0 = some "x" from rfl)]
  rfl

/-- The empty filesystem of the C7 scenario: no trace files. -/
def emptyFSC7 : TraceFS := fun _ => none

/-- One session's writes in the C7 scenario: append a record to the
active file (index 0), creating it when absent. -/
def appendActiveC7 (r : String) (fs : TraceFS) : TraceFS :=
  fun j => if j = 0 then some (((fs 0).getD "") ++ r) else fs j

/-- C7: with `max_file_size_mb = 0` and `max_files = 3`, starting from
no trace files, after three session startups (each running the
rotation check and then appending a record to the active file), the
historical files `P.1` and `P.2` exist and `P.3` does not — the oldest
generation was discarded. -/
theorem three_session_rotation :
    ((appendActiveC7 "c\n" (rotateFilesIfNeeded 0 3
        (appendActiveC7 "b\n" (rotateFilesIfNeeded 0 3
          (appendActiveC7 "a\n" (rotateFilesIfNeeded 0 3 emptyFSC7)))))) 1).isSome = true ∧
    ((appendActiveC7 "c\n" (rotateFilesIfNeeded 0 3
        (appendActiveC7 "b\n" (rotateFilesIfNeeded 0 3
          (appendActiveC7 "a\n" (rotateFilesIfNeeded 0 3 emptyFSC7)))))) 2).isSome = true ∧
    (appendActiveC7 "c\n" (rotateFilesIfNeeded 0 3
        (appendActiveC7 "b\n" (rotateFilesIfNeeded 0 3
          (appendActiveC7 "a\n" (rotateFilesIfNeeded 0 3 emptyFSC7)))))) 3 = none := by
  have h1 : rotateFilesIfNeeded 0 3 emptyFSC7 = emptyFSC7 :=
    rotateFilesIfNeeded_none 0 3 rfl
  rw [h1]
  have h2 : rotateFilesIfNeeded 0 3 (appendActiveC7 "a\n" emptyFSC7) =
      rotRename 3 (appendActiveC7 "a\n" emptyFSC7) := by
    rw [rotateFilesIfNeeded_some 0 3 (show (appendActiveC7 "a\n" emptyFSC7) 0 =
      some "a\n" from rfl), if_pos (by positivity)]
  rw [h2]
  have h3 : rotateFilesIfNeeded 0 3
      (appendActiveC7 "b\n" (rotRename 3 (appendActiveC7 "a\n" emptyFSC7))) =
      rotRename 3 (appendActiveC7 "b\n" (rotRename 3 (appendActiveC7 "a\n" emptyFSC7))) := by
    rw [rotateFilesIfNeeded_some 0 3 (show (appendActiveC7 "b\n"
      (rotRename 3 (appendActiveC7 "a\n" emptyFSC7))) 0 = some "b\n" from rfl),
      if_pos (by positivity)]
  rw [h3]
  refine ⟨?_, ?_, ?_⟩ <;> rfl

/-- C6: `_convert_tensor_to_list` is idempotent — a value composed only
of primitives, ordered lists and string-keyed mappings (no array-like
objects, no tuples) is returned unchanged, and for every value `v`,
normalizing twice equals normalizing once. -/
theorem convert_tensor_to_list_idem (v : PyVal) :
    (isNormalized v = true → convertTensorToList v = v) ∧
    convertTensorToList (convertTensorToList v) = convertTensorToList v :=
  ⟨convert_of_normalized v,
    convert_of_normalized (convertTensorToList v) (isNormalized_convert v)⟩

theorem convert_tensor_to_list_idem_witness :
    convertTensorToList (.vlist (.cons (.vint 3) (.cons (.vstr "s") .nil))) =
      .vlist (.cons (.vint 3) (.cons (.vstr "s") .nil)) ∧
    convertTensorToList (convertTensorToList
        (.vtuple (.cons (.vtensor ⟨[2], .arr (.cons (.scalar 1) (.cons (.scalar 2) .nil))⟩) .nil))) =
      convertTensorToList
        (.vtuple (.cons (.vtensor ⟨[2], .arr (.cons (.scalar 1) (.cons (.scalar 2) .nil))⟩) .nil)) :=
  ⟨(convert_tensor_to_list_idem _).1 rfl, (convert_tensor_to_list_idem _).2⟩

/-- C10: in `trace_request`, caller-supplied extra keyword arguments are
merged into `data` after the fixed fields by plain dict assignment, so
an extra keyword whose name equals one of the computed field keys (for
example `token_ids_shape`) silently replaces the computed value in the
emitted record with the caller's (normalized) value. -/
theorem request_kwargs_override (request_type : String) (request_id : Int)
    (token_ids slot_mapping : Tensor) (token_mask : Option Tensor)
    (layer_granularity dp_id : Int) (kwargs : PyDict) (k : String) (v : PyVal)
    (hnd : (dictKeys kwargs).Nodup) (hget : dictGet kwargs k = some v)
    (hfix : k ∈ requestFixedKeys) :
    dictGet (requestData request_type request_id token_ids slot_mapping
      token_mask layer_granularity dp_id kwargs) k =
      some (convertTensorToList v) :=
  applyKwargs_get_mem kwargs
    (requestDataFixed request_type request_id token_ids slot_mapping
      token_mask layer_granularity dp_id) k v hnd hget

theorem request_kwargs_override_witness :
    (dictKeys (PyDict.cons "token_ids_shape" (.vint 7) .nil)).Nodup ∧
    dictGet (PyDict.cons "token_ids_shape" (.vint 7) .nil) "token_ids_shape" =
      some (.vint 7) ∧
    "token_ids_shape" ∈ requestFixedKeys ∧
    dictGet (requestData "get" 1 ⟨[1], .arr (.cons (.scalar 5) .nil)⟩
      ⟨[1], .arr (.cons (.scalar 6) .nil)⟩ none (-1) 0
      (PyDict.cons "token_ids_shape" (.vint 7) .nil)) "token_ids_shape" =
      some (convertTensorToList (.vint 7)) :=
  ⟨by simp [dictKeys], rfl, by decide,
    request_kwargs_override "get" 1 ⟨[1], .arr (.cons (.scalar 5) .nil)⟩
      ⟨[1], .arr (.cons (.scalar 6) .nil)⟩ none (-1) 0
      (PyDict.cons "token_ids_shape" (.vint 7) .nil) "token_ids_shape" (.vint 7)
      (by simp [dictKeys]) rfl (by decide)⟩

theorem pyToJDict_cons_eq {v : PyVal} {kvs : PyDict} {jv : JVal} {jkvs : JObj}
    (k : String) (hv : pyToJ v = some jv) (hk : pyToJDict kvs = some jkvs) :
    pyToJDict (.cons k v kvs) = some (.cons k jv jkvs) := by
  show (match pyToJ v, pyToJDict kvs with
    | some j, some js => some (JObj.cons k j js)
    | _, _ => none) = _
  rw [hv, hk]

/-- `pyToJ` commutes with dict lookup: a successfully serialized dict
holds, at each key, the serialization of the Python value there. -/
theorem pyToJDict_lookup :
    ∀ (kvs : PyDict) (jd : JObj), pyToJDict kvs = some jd →
      ∀ (k : String) (v : PyVal), dictGet kvs k = some v →
        ∃ jv, pyToJ v = some jv ∧ JObj.lookup jd k = some jv
  | .nil, jd, _, k, v, hget => by cases hget
  | .cons k2 v2 rest, jd, hser, k, v, hget => by
    have hser2 : (match pyToJ v2, pyToJDict rest with
      | some j, some js => some (JObj.cons k2 j js)
      | _, _ => none) = some jd := hser
    cases hv2 : pyToJ v2 with
    | none => rw [hv2] at hser2; cases hser2
    | some j2 =>
      cases hrest : pyToJDict rest with
      | none => rw [hv2, hrest] at hser2; cases hser2
      | some jrest =>
        rw [hv2, hrest] at hser2
        obtain rfl : JObj.cons k2 j2 jrest = jd := Option.some.inj hser2
        rcases eq_or_ne k2 k with rfl | hne
        · have hv : v2 = v := by
            have h2 : dictGet (PyDict.cons k2 v2 rest) k2 = some v := hget
            rw [dictGet, if_pos rfl] at h2
            exact Option.some.inj h2
          subst hv
          exact ⟨j2, hv2, by rw [JObj.lookup, if_pos rfl]⟩
        · have h2 : dictGet rest k = some v := by
            have h3 : dictGet (PyDict.cons k2 v2 rest) k = some v := hget
            rw [dictGet, if_neg hne] at h3
            exact h3
          obtain ⟨jv, hjv, hlook⟩ := pyToJDict_lookup rest jrest hrest k v h2
          exact ⟨jv, hjv, by rw [JObj.lookup, if_neg hne]; exact hlook⟩

/-- C9: `trace_request` called without a `token_mask` argument succeeds
— the record is JSON-serializable, raising no error — and the emitted
record's `data` contains `token_mask = null` and
`token_mask_shape = null`. -/
theorem trace_request_null_token_mask (ts rt : String) (rid : Int)
    (tk sm : Tensor) (lg dp : Int) :
    dictGet (requestData rt rid tk sm none lg dp .nil) "token_mask" =
      some .vnone ∧
    dictGet (requestData rt rid tk sm none lg dp .nil) "token_mask_shape" =
      some .vnone ∧
    ∃ j, pyToJ (requestRecordPy ts rt rid tk sm none lg dp .nil) = some j ∧
      ∃ jd, jLookup j "data" = some (.jobj jd) ∧
        JObj.lookup jd "token_mask" = some .jnull ∧
        JObj.lookup jd "token_mask_shape" = some .jnull := by
  refine ⟨rfl, rfl, ?_⟩
  obtain ⟨j1, h1⟩ := Option.isSome_iff_exists.mp (pyToJ_tolist_isSome tk.elems)
  obtain ⟨j2, h2⟩ := Option.isSome_iff_exists.mp (pyToJ_tolist_isSome sm.elems)
  obtain ⟨j3, h3⟩ := Option.isSome_iff_exists.mp (pyToJ_vIntList_isSome tk.shape)
  obtain ⟨j4, h4⟩ := Option.isSome_iff_exists.mp (pyToJ_vIntList_isSome sm.shape)
  have hfix : pyToJDict (requestData rt rid tk sm none lg dp .nil) = some
      (.cons "request_type" (.jstr rt) (.cons "request_id" (.jint rid)
       (.cons "token_ids" j1 (.cons "slot_mapping" j2 (.cons "token_mask" .jnull
       (.cons "layer_granularity" (.jint lg) (.cons "dp_id" (.jint dp)
       (.cons "token_ids_shape" j3 (.cons "slot_mapping_shape" j4
       (.cons "token_mask_shape" .jnull .nil)))))))))) :=
    pyToJDict_cons_eq _ rfl (pyToJDict_cons_eq _ rfl (pyToJDict_cons_eq _ h1
      (pyToJDict_cons_eq _ h2 (pyToJDict_cons_eq _ rfl (pyToJDict_cons_eq _ rfl
      (pyToJDict_cons_eq _ rfl (pyToJDict_cons_eq _ h3 (pyToJDict_cons_eq _ h4
      (pyToJDict_cons_eq _ rfl rfl)))))))))
  obtain ⟨jd0, hjd0⟩ : ∃ jd,
      pyToJDict (requestData rt rid tk sm none lg dp .nil) = some jd := ⟨_, hfix⟩
  have hdata : pyToJ (.vdict (requestData rt rid tk sm none lg dp .nil)) =
      some (.jobj jd0) := by
    show (pyToJDict (requestData rt rid tk sm none lg dp .nil)).map JVal.jobj = _
    rw [hjd0]
    rfl
  have hrec : pyToJ (requestRecordPy ts rt rid tk sm none lg dp .nil) = some (.jobj
      (.cons "timestamp" (.jstr ts) (.cons "event_type" (.jstr "request")
       (.cons "component" (.jstr "KVManager")
       (.cons "data" (.jobj jd0) .nil))))) := by
    have e4 : pyToJDict (.cons "data"
        (.vdict (requestData rt rid tk sm none lg dp .nil)) .nil) =
        some (.cons "data" (.jobj jd0) .nil) :=
      pyToJDict_cons_eq _ hdata rfl
    have e3 : pyToJDict (.cons "component" (.vstr "KVManager") (.cons "data"
        (.vdict (requestData rt rid tk sm none lg dp .nil)) .nil)) =
        some (.cons "component" (.jstr "KVManager") (.cons "data" (.jobj jd0) .nil)) :=
      pyToJDict_cons_eq _ rfl e4
    have e2 : pyToJDict (.cons "event_type" (.vstr "request")
        (.cons "component" (.vstr "KVManager") (.cons "data"
        (.vdict (requestData rt rid tk sm none lg dp .nil)) .nil))) =
        some (.cons "event_type" (.jstr "request")
          (.cons "component" (.jstr "KVManager") (.cons "data" (.jobj jd0) .nil))) :=
      pyToJDict_cons_eq _ rfl e3
    have e1 : pyToJDict (.cons "timestamp" (.vstr ts) (.cons "event_type" (.vstr "request")
        (.cons "component" (.vstr "KVManager") (.cons "data"
        (.vdict (requestData rt rid tk sm none lg dp .nil)) .nil)))) =
        some (.cons "timestamp" (.jstr ts) (.cons "event_type" (.jstr "request")
          (.cons "component" (.jstr "KVManager") (.cons "data" (.jobj jd0) .nil)))) :=
      pyToJDict_cons_eq _ rfl e2
    show (pyToJDict (.cons "timestamp" (.vstr ts) (.cons "event_type" (.vstr "request")
      (.cons "component" (.vstr "KVManager") (.cons "data"
        (.vdict (requestData rt rid tk sm none lg dp .nil)) .nil))))).map JVal.jobj = _
    rw [e1]
    rfl
  obtain ⟨jv1, hjv1, hl1⟩ := pyToJDict_lookup _ jd0 hjd0 "token_mask" .vnone rfl
  obtain ⟨jv2, hjv2, hl2⟩ :=
    pyToJDict_lookup _ jd0 hjd0 "token_mask_shape" .vnone rfl
  obtain rfl : JVal.jnull = jv1 := Option.some.inj hjv1
  obtain rfl : JVal.jnull = jv2 := Option.some.inj hjv2
  exact ⟨_, hrec, jd0, rfl, hl1, hl2⟩

/-- A concrete model configuration for witnesses. -/
def mcEx : ModelConfigT := ⟨4, 2, 64, false, "torch.float16", 1, 1⟩

/-- C8: for each of `trace_config`, `trace_request` and
`trace_wait_request` on an enabled tracer, the serialized text record
appended to the buffer is a single line with no embedded newline, even
when string payload fields themselves contain newline characters
(`json.dumps` escapes them). -/
theorem trace_records_single_line
    (ts1 wt : String) (tids : TaskIds) (lgid : Option Int)
    (ts2 rt : String) (rid : Int) (tk sm : Tensor) (tm : Option Tensor)
    (lg dp : Int) (kw : PyDict)
    (ts3 : String) (mc : ModelConfigT) (cc : CacheConfigT)
    (gl : Option GpuLayoutT) :
    noNL (waitJsonRecord ts1 wt tids lgid).data ∧
    (∀ j, pyToJ (requestRecordPy ts2 rt rid tk sm tm lg dp kw) = some j →
      noNL (dumps j).data) ∧
    (∀ j, pyToJ (configRecordPy ts3 mc cc gl) = some j →
      noNL (dumps j).data) := by
  refine ⟨?_, fun j _ => ?_, fun j _ => ?_⟩ <;> exact noNL_dumpsChars _

theorem trace_records_single_line_witness :
    noNL (waitJsonRecord "t" "a\nb" (.inl 1) none).data ∧
    noNL (dumps ((pyToJ (requestRecordPy "t" "x\ny" 1
      ⟨[1], .arr (.cons (.scalar 1) .nil)⟩
      ⟨[1], .arr (.cons (.scalar 2) .nil)⟩ none (-1) 0 .nil)).getD .jnull)).data :=
  ⟨(trace_records_single_line "t" "a\nb" (.inl 1) none "t" "x\ny" 1
      ⟨[1], .arr (.cons (.scalar 1) .nil)⟩
      ⟨[1], .arr (.cons (.scalar 2) .nil)⟩ none (-1) 0 .nil "t" mcEx ccEn none).1,
   (trace_records_single_line "t" "a\nb" (.inl 1) none "t" "x\ny" 1
      ⟨[1], .arr (.cons (.scalar 1) .nil)⟩
      ⟨[1], .arr (.cons (.scalar 2) .nil)⟩ none (-1) 0 .nil "t" mcEx ccEn none).2.1
     ((pyToJ (requestRecordPy "t" "x\ny" 1
      ⟨[1], .arr (.cons (.scalar 1) .nil)⟩
      ⟨[1], .arr (.cons (.scalar 2) .nil)⟩ none (-1) 0 .nil)).getD .jnull) rfl⟩

/-! ## Wait-record lemmas and the C4 end-to-end run -/

theorem JArr_ints_ofInts : ∀ l : List Int, JArr.ints (JArr.ofInts l) = l
  | [] => rfl
  | n :: l => by
    show n :: JArr.ints (JArr.ofInts l) = n :: l
    rw [JArr_ints_ofInts l]

/-- The `task_ids` recovered from a wait record are exactly the
normalized task-id list of the call. -/
theorem recTaskIds_waitRecord (ts wt : String) (tids : TaskIds)
    (lgid : Option Int) :
    recTaskIds (waitRecord ts wt tids lgid) = taskIdsList tids := by
  show JArr.ints (JArr.ofInts (taskIdsList tids)) = taskIdsList tids
  exact JArr_ints_ofInts _

theorem eventType_waitRecord (ts wt : String) (tids : TaskIds)
    (lgid : Option Int) :
    jLookup (waitRecord ts wt tids lgid) "event_type" = some (.jstr "wait") :=
  rfl

/-- The wait record of a call, as a JSON value. -/
def waitRecordOf (c : WaitCall) : JVal :=
  waitRecord c.timestamp c.wait_type c.task_ids c.layer_group_id

theorem bind_recTaskIds_waitRecordOf : ∀ cs : List WaitCall,
    (cs.map waitRecordOf).flatMap recTaskIds =
      cs.flatMap (fun c => taskIdsList c.task_ids)
  | [] => rfl
  | c :: cs => by
    show recTaskIds (waitRecordOf c) ++ (cs.map waitRecordOf).flatMap recTaskIds =
      taskIdsList c.task_ids ++ cs.flatMap (fun c => taskIdsList c.task_ids)
    rw [bind_recTaskIds_waitRecordOf cs]
    show recTaskIds (waitRecord c.timestamp c.wait_type c.task_ids c.layer_group_id) ++ _ = _
    rw [recTaskIds_waitRecord]

/-- C4: starting from an enabled tracer with an empty buffer and no
trace file, a sequence of `trace_wait_request` calls with
pairwise-distinct task ids followed by `flush()` leaves the trace file
with exactly N lines (one per call, in order); each line is the
`json.dumps` serialization of a JSON object whose `event_type` is
`"wait"`; and the task ids collected across all lines are exactly the
input ids — the same set, with no record lost and none duplicated. -/
theorem wait_requests_flush_file (iv t0 fnow : Int) (calls : List WaitCall)
    (w0 : World) (hw0 : w0.fs 0 = none)
    (hnd : (calls.flatMap (fun c => taskIdsList c.task_ids)).Nodup) :
    fileLines (fileContent (flushBuffer fnow
        (runWaitCalls iv calls ⟨[], t0⟩ w0).1
        (runWaitCalls iv calls ⟨[], t0⟩ w0).2).2) = calls.map serWait ∧
    (fileLines (fileContent (flushBuffer fnow
        (runWaitCalls iv calls ⟨[], t0⟩ w0).1
        (runWaitCalls iv calls ⟨[], t0⟩ w0).2).2)).length = calls.length ∧
    calls.map serWait = (calls.map waitRecordOf).map dumps ∧
    (∀ r ∈ calls.map waitRecordOf,
      jLookup r "event_type" = some (.jstr "wait")) ∧
    (calls.map waitRecordOf).flatMap recTaskIds =
      calls.flatMap (fun c => taskIdsList c.task_ids) ∧
    ((calls.map waitRecordOf).flatMap recTaskIds).Nodup := by
  have hc0 : fileContent w0 = "" := by
    rw [fileContent, hw0]
    rfl
  have hinv := runWaitCalls_inv iv calls ⟨[], t0⟩ w0
  rw [hc0, String.empty_append] at hinv
  have hbuf : joinLines (([] : List String) ++ calls.map serWait) =
      joinLines (calls.map serWait) := rfl
  rw [hbuf] at hinv
  obtain ⟨hflushc, _⟩ := fileContent_flushBuffer fnow
    (runWaitCalls iv calls ⟨[], t0⟩ w0).1 (runWaitCalls iv calls ⟨[], t0⟩ w0).2
  have hcontent : fileContent (flushBuffer fnow
      (runWaitCalls iv calls ⟨[], t0⟩ w0).1
      (runWaitCalls iv calls ⟨[], t0⟩ w0).2).2 = joinLines (calls.map serWait) := by
    rw [hflushc, hinv]
  have hnoNL : ∀ r ∈ calls.map serWait, noNL r.data := by
    intro r hr
    obtain ⟨c, _, rfl⟩ := List.mem_map.mp hr
    exact noNL_dumpsChars (waitRecordOf c)
  have hlines : fileLines (fileContent (flushBuffer fnow
      (runWaitCalls iv calls ⟨[], t0⟩ w0).1
      (runWaitCalls iv calls ⟨[], t0⟩ w0).2).2) = calls.map serWait := by
    rw [hcontent]
    exact fileLines_joinLines _ hnoNL
  refine ⟨hlines, ?_, ?_, ?_, ?_, ?_⟩
  · rw [hlines, List.length_map]
  · rw [List.map_map]
    rfl
  · intro r hr
    obtain ⟨c, _, rfl⟩ := List.mem_map.mp hr
    exact eventType_waitRecord c.timestamp c.wait_type c.task_ids c.layer_group_id
  · exact bind_recTaskIds_waitRecordOf calls
  · rw [bind_recTaskIds_waitRecordOf calls]
    exact hnd

theorem wait_requests_flush_file_witness :
    w0Ex.fs 0 = none ∧
    (([⟨0, "t1", "done", .inl 1, none⟩, ⟨0, "t2", "done", .inl 2, none⟩] :
        List WaitCall).flatMap (fun c => taskIdsList c.task_ids)).Nodup ∧
    (fileLines (fileContent (flushBuffer 1
        (runWaitCalls 1000000
          [⟨0, "t1", "done", .inl 1, none⟩, ⟨0, "t2", "done", .inl 2, none⟩]
          ⟨[], 0⟩ w0Ex).1
        (runWaitCalls 1000000
          [⟨0, "t1", "done", .inl 1, none⟩, ⟨0, "t2", "done", .inl 2, none⟩]
          ⟨[], 0⟩ w0Ex).2).2)).length =
      ([⟨0, "t1", "done", .inl 1, none⟩, ⟨0, "t2", "done", .inl 2, none⟩] :
        List WaitCall).length :=
  ⟨rfl, by decide,
    (wait_requests_flush_file 1000000 0 1
      [⟨0, "t1", "done", .inl 1, none⟩, ⟨0, "t2", "done", .inl 2, none⟩]
      w0Ex rfl (by decide)).2.1⟩
